import Mathlib

/-!
Verification development for the DocSecure (AegisSign) document signing and
verification core.  The definitions below are a shallow embedding of the
TypeScript sources:

* `src/backend/src/utils/pdfUtils.ts` (envelope codec and canonicalizer),
* `src/backend/src/utils/cryptoUtils.ts` (key wrapping and signature engine),
* the document controller (signing and verification orchestrators, in two
  variants: a registry-backed verifier and a pure cryptographic verifier).

External collaborators (pdf-lib, node crypto, noble-ed25519, mongoose) are
modelled from the specification, as marked in the individual doc comments.
Strings manipulated by the code are represented as lists of characters so that
every definition evaluates inside the kernel.
-/

namespace DocSecure

/-- Value of a hex digit, matching the character class [a-fA-F0-9] used by the
extraction regular expressions in pdfUtils.ts; `none` for non-hex characters. -/
def hexVal (c : Char) : Option Nat :=
  if '0' ≤ c ∧ c ≤ '9' then some (c.toNat - '0'.toNat)
  else if 'a' ≤ c ∧ c ≤ 'f' then some (c.toNat - 'a'.toNat + 10)
  else if 'A' ≤ c ∧ c ≤ 'F' then some (c.toNat - 'A'.toNat + 10)
  else none

/-- Membership in the regex character class [a-fA-F0-9]. -/
def isHexDigit (c : Char) : Bool := (hexVal c).isSome

/-- Greedy match of the regex fragment ([a-fA-F0-9]+): the longest hex-digit
run at the head of the list, together with the remainder. -/
def splitHex : List Char → List Char × List Char
  | [] => ([], [])
  | c :: r =>
    if isHexDigit c then
      ((splitHex r).1.cons c, (splitHex r).2)
    else ([], c :: r)

/-- Leftmost match of the pattern tag-then-one-or-more-hex-digits, as computed
by JavaScript String.match with a non-global regular expression: scanning left
to right, at the first position where `tag` is a prefix and is followed by at
least one hex digit, return the text before the match, the greedy hex payload,
and the text after the match.  String.replace with the same pattern removes
exactly the matched substring, i.e. produces the before-part appended to the
after-part. -/
def findTag (tag : List Char) : List Char → Option (List Char × List Char × List Char)
  | [] => none
  | c :: rest =>
    if tag.isPrefixOf (c :: rest) && !((splitHex ((c :: rest).drop tag.length)).1.isEmpty) then
      some ([], (splitHex ((c :: rest).drop tag.length)).1,
            (splitHex ((c :: rest).drop tag.length)).2)
    else
      match findTag tag rest with
      | some (pre, payload, post) => some (c :: pre, payload, post)
      | none => none

/-- JavaScript String.split with separator ',' (always returns at least one,
possibly empty, field). -/
def splitOnComma : List Char → List (List Char)
  | [] => [[]]
  | c :: r =>
    if c = ',' then [] :: splitOnComma r
    else
      match splitOnComma r with
      | h :: t => (c :: h) :: t
      | [] => [[c]]

/-- JavaScript String.trim: drop whitespace at both ends. -/
def trimChars (l : List Char) : List Char :=
  ((l.dropWhile Char.isWhitespace).reverse.dropWhile Char.isWhitespace).reverse

/-- JavaScript Array.join(' '), as performed by pdf-lib setKeywords. -/
def joinSpace : List (List Char) → List Char
  | [] => []
  | [x] => x
  | x :: r => x ++ ' ' :: joinSpace r

/-- JavaScript Buffer.from(string, hex): decode hex two characters at a time,
truncating at the first invalid pair or odd trailing character; never throws. -/
def hexDecodeJS : List Char → List Nat
  | a :: b :: rest =>
    match hexVal a, hexVal b with
    | some x, some y => (16 * x + y) :: hexDecodeJS rest
    | _, _ => []
  | _ => []

/-- The parsed form of a PDF document as seen through pdf-lib in this code
base: the five Info-dictionary metadata fields read and written by
pdfUtils.ts (Title, Subject, Keywords, Producer, Creator), each possibly
absent, plus an opaque identifier for all remaining document content (pages,
objects, timestamps), which none of the embedded operations touch. -/
structure PdfDoc where
  title : Option (List Char)
  subject : Option (List Char)
  keywords : Option (List Char)
  producer : Option (List Char)
  creator : Option (List Char)
  content : Nat
deriving DecidableEq

/-- Modelled from the spec: the byte strings relevant to the canonicalizer.
pdf-lib serialization (PDFDocument.save) is deterministic, so each document
has one canonical byte form (`canon`); the same document may also arrive in
other, non-canonical serializations (`noncanon`, distinguished by an opaque
variant index); and some byte strings are not parsable PDFs (`malformed`). -/
inductive PdfBytes
  | canon (d : PdfDoc)
  | noncanon (d : PdfDoc) (variant : Nat)
  | malformed (raw : Nat)
deriving DecidableEq

/-- Modelled from the spec: pdf-lib PDFDocument.load with updateMetadata set
to false — parse the container, failing on malformed input, recovering the
document a serialization came from. -/
def loadPdf : PdfBytes → Option PdfDoc
  | .canon d => some d
  | .noncanon d _ => some d
  | .malformed _ => none

/-- Modelled from the spec: pdf-lib PDFDocument.save — deterministic
serialization producing the canonical byte form. -/
def savePdf (d : PdfDoc) : PdfBytes := .canon d

/-- Concrete encoding of a character list as a number, used to give the
SHA-256 model a definite value on every input. -/
def encodeCharList (l : List Char) : Nat :=
  l.foldl (fun a c => a * 1114112 + c.toNat + 1) 1

/-- Encoding of an optional metadata field. -/
def encodeField : Option (List Char) → Nat
  | none => 0
  | some l => encodeCharList l + 1

/-- Encoding of a parsed document. -/
def encodePdfDoc (d : PdfDoc) : Nat :=
  Nat.pair (encodeField d.title)
    (Nat.pair (encodeField d.subject)
      (Nat.pair (encodeField d.keywords)
        (Nat.pair (encodeField d.producer)
          (Nat.pair (encodeField d.creator) d.content))))

/-- Modelled from the spec: SHA-256 over a byte buffer (cryptoUtils.ts
sha256), idealized as a deterministic digest of the bytes. -/
def sha256 : PdfBytes → Nat
  | .canon d => Nat.pair 0 (encodePdfDoc d)
  | .noncanon d v => Nat.pair 1 (Nat.pair (encodePdfDoc d) v)
  | .malformed r => Nat.pair 2 r

/-- pdfUtils.ts hashPdfBuffer: SHA-256 of a PDF buffer. -/
def hashPdfBuffer (b : PdfBytes) : Nat := sha256 b

/-- pdfUtils.ts SIGNATURE_KEY. -/
def SIGNATURE_KEY : List Char := "AegisSign_Signature".toList

/-- pdfUtils.ts OWNER_KEY. -/
def OWNER_KEY : List Char := "AegisSign_Owner".toList

/-- The full token head written into the Producer field by the template
literal in injectSignature: the separator, SIGNATURE_KEY, and a colon. -/
def sigToken : List Char := "||AegisSign_Signature:".toList

/-- The full token head written into the Creator field: the separator,
OWNER_KEY, and a colon. -/
def ownToken : List Char := "||AegisSign_Owner:".toList

/-- pdfUtils.ts ExtractedSignatureData. -/
structure ExtractedSignatureData where
  signature : List Char
  publicKey : List Char
  strippedPdfBuffer : PdfBytes
deriving DecidableEq

/-- pdfUtils.ts injectSignature: load the PDF; re-set Title (with the JS
falsy-default 'Signed Document'), Subject (default empty), Keywords (split on
commas, trim, rejoin with spaces); append the tagged signature token to
Producer and the tagged owner token to Creator; save.  The modification date
is not touched. -/
def injectSignature (pdfBuffer : PdfBytes) (signature publicKey : List Char) :
    Except String PdfBytes :=
  match loadPdf pdfBuffer with
  | none => .error "Failed to load PDF"
  | some d =>
    let title := match d.title with
      | some t => if t = [] then "Signed Document".toList else t
      | none => "Signed Document".toList
    let subject := d.subject.getD []
    let keywords := match d.keywords with
      | some kw => joinSpace ((splitOnComma kw).map trimChars)
      | none => []
    let existingProducer := d.producer.getD []
    let existingCreator := d.creator.getD []
    .ok (savePdf
      { d with
        title := some title
        subject := some subject
        keywords := some keywords
        producer := some (existingProducer ++ sigToken ++ signature)
        creator := some (existingCreator ++ ownToken ++ publicKey) })

/-- pdfUtils.ts normalizePdf: load and re-save, producing the canonical
serialization; fails on malformed input. -/
def normalizePdf (pdfBuffer : PdfBytes) : Except String PdfBytes :=
  match loadPdf pdfBuffer with
  | none => .error "Failed to load PDF"
  | some d => .ok (savePdf d)

/-- A buffer is canonical when normalizing it reproduces it byte for byte. -/
def IsCanonical (b : PdfBytes) : Prop := normalizePdf b = .ok b

/-- pdfUtils.ts extractAndStripSignature: load the PDF; match the tagged
tokens in Producer and Creator; if either is absent return `none` (not
signed); otherwise capture the hex payloads, remove exactly the matched
token substrings, re-save, and return signature, public key and the stripped
buffer. -/
def extractAndStripSignature (pdfBuffer : PdfBytes) :
    Except String (Option ExtractedSignatureData) :=
  match loadPdf pdfBuffer with
  | none => .error "Failed to load PDF"
  | some d =>
    let producer := d.producer.getD []
    let creator := d.creator.getD []
    match findTag sigToken producer, findTag ownToken creator with
    | some (pre1, signature, post1), some (pre2, publicKey, post2) =>
      .ok (some
        { signature := signature
          publicKey := publicKey
          strippedPdfBuffer := savePdf
            { d with
              producer := some (pre1 ++ post1)
              creator := some (pre2 ++ post2) } })
    | _, _ => .ok none

/-- Combine a list of numbers into one; used by the modelled primitives where
no structural property of the combination is needed. -/
def mixNat (l : List Nat) : Nat := l.foldl (fun a b => a + b + 1) 0

/-- Concrete encoding of a string as a number, used by the PBKDF2 model. -/
def encodeStr (s : String) : Nat :=
  s.toList.foldl (fun a c => a * 1114112 + c.toNat + 1) 1

/-- Modelled from the spec: PBKDF2-SHA256 with 100000 iterations
(cryptoUtils.ts deriveKeyFromPassword, node crypto pbkdf2Sync), idealized as
a deterministic function of password and salt producing a 32-byte key.  The
caller in the signing orchestrator always supplies the identity's stored
salt, so the generate-fresh-salt branch is not modelled. -/
def deriveKeyFromPassword (password : String) (salt : List Nat) : List Nat :=
  encodeStr password :: mixNat salt :: List.replicate 30 0

/-- Modelled from the spec: the AES-256-GCM keystream value for byte index
`i` under a key and a 12-byte IV. -/
def keystream (dek iv : List Nat) (i : Nat) : Nat :=
  mixNat dek + 31 * mixNat iv + i

/-- Modelled from the spec: the encrypting half of AES-256-GCM
(cipher.update / cipher.final): byte-wise combination of the plaintext with
the keystream. -/
def gcmEncryptBody (dek iv : List Nat) : Nat → List Nat → List Nat
  | _, [] => []
  | i, b :: r => (b + keystream dek iv i) % 256 :: gcmEncryptBody dek iv (i + 1) r

/-- Modelled from the spec: the decrypting half of AES-256-GCM
(decipher.update / decipher.final), inverting `gcmEncryptBody` byte-wise. -/
def gcmDecryptBody (dek iv : List Nat) : Nat → List Nat → List Nat
  | _, [] => []
  | i, b :: r =>
    (b + (256 - keystream dek iv i % 256)) % 256 :: gcmDecryptBody dek iv (i + 1) r

/-- Pair up consecutive entries of a list, halving its length. -/
def pairUp : List Nat → List Nat
  | a :: b :: r => Nat.pair a b :: pairUp r
  | [a] => [Nat.pair a 0]
  | [] => []

/-- Modelled from the spec: the 16-byte AES-256-GCM authentication tag
(cipher.getAuthTag), idealized as a message authentication code that is
injective in a 32-byte key — distinct keys always produce distinct tags —
and depends on the IV and the ciphertext.  Collisions in the IV or
ciphertext arguments are not excluded; no claim needs them excluded. -/
def gcmAuthTag (dek iv ct : List Nat) : List Nat :=
  match pairUp dek with
  | [] => [Nat.pair 0 (Nat.pair (mixNat iv) (mixNat ct))]
  | t0 :: rest => Nat.pair t0 (Nat.pair (mixNat iv) (mixNat ct)) :: rest

/-- cryptoUtils.ts encryptPrivateKey: AES-256-GCM-encrypt the raw private
key under the derived key, then append the 16-byte authentication tag to the
ciphertext; the random 12-byte IV is passed in explicitly (the source draws
it from randomBytes) and returned alongside.  The hex transport encoding of
the result is elided: Buffer.toString and Buffer.from with the hex codec
form a bijection on byte buffers, so buffers are carried directly. -/
def encryptPrivateKey (privateKey dek iv : List Nat) : List Nat × List Nat :=
  let encrypted := gcmEncryptBody dek iv 0 privateKey
  (encrypted ++ gcmAuthTag dek iv encrypted, iv)

/-- cryptoUtils.ts decryptPrivateKey: split the buffer into ciphertext and
trailing 16-byte authentication tag, recompute the tag under the supplied
key and IV, and fail (node crypto decipher.final throws) when it does not
verify; otherwise return the decrypted bytes. -/
def decryptPrivateKey (encryptedPrivateKey iv dek : List Nat) :
    Except String (List Nat) :=
  let n := encryptedPrivateKey.length - 16
  let authTag := encryptedPrivateKey.drop n
  let encryptedData := encryptedPrivateKey.take n
  if authTag = gcmAuthTag dek iv encryptedData then
    .ok (gcmDecryptBody dek iv 0 encryptedData)
  else
    .error "Unsupported state or unable to authenticate data"

/-- cryptoUtils.ts signHash: Ed25519 signature over a digest, modelled from
the spec as a deterministic function of digest and private key; its value is
opaque to every claim. -/
def signHash (hash : Nat) (privateKey : List Nat) : Nat :=
  Nat.pair hash (mixNat privateKey)

/-- cryptoUtils.ts verifySignature: hex-decode the signature and public key
the way Buffer.from does, run the Ed25519 verifier — abstracted as the
`edVerify` argument, which may either return a boolean or throw — and catch
any exception, collapsing it into the result false. -/
def verifySignature (edVerify : List Nat → Nat → List Nat → Except String Bool)
    (signature : List Char) (hash : Nat) (publicKey : List Char) : Bool :=
  match edVerify (hexDecodeJS signature) hash (hexDecodeJS publicKey) with
  | .ok b => b
  | .error _ => false

/-- cryptoUtils.ts secureWipe: overwrite every byte of the buffer with 0. -/
def secureWipe (data : List Nat) : List Nat := data.map fun _ => 0

/-- A user record as consulted by the controllers: the persisted identity
with its public key, wrapped private key, IV and KDF salt. -/
structure UserRec where
  email : List Char
  publicKey : List Char
  encryptedPrivateKey : List Nat
  iv : List Nat
  salt : List Nat
deriving DecidableEq

/-- A Document Registry entry as consulted by the registry-backed verifier:
the signature it was stored under, the populated signer (absent when the
referenced user no longer resolves), and the creation time. -/
structure DocRecord where
  signature : List Char
  signer : Option UserRec
  createdAt : Nat
deriving DecidableEq

/-- The request environment of the signing orchestrator: the input
validation outcomes, the uploaded bytes, the password, the resolved user
record, and throw oracles for the external steps that can fail after the
private key has been decrypted (Ed25519 signing, metadata injection, the
registry insert of the registry-backed variant, and sending the response). -/
structure SignEnv where
  hasFile : Bool
  hasPassword : Bool
  mimeOk : Bool
  userFound : Bool
  file : PdfBytes
  password : String
  user : UserRec
  signThrows : Bool
  injectThrows : Bool
  registryThrows : Bool
  sendThrows : Bool
deriving DecidableEq

/-- The observable outcome of one signing call: the HTTP status, the buffer
that was passed to hashPdfBuffer (if the flow reached hashing), and the
final contents of the raw-private-key buffer (`none` when the key was never
materialized). -/
structure SignResult where
  status : Nat
  hashedBytes : Option PdfBytes
  keyBuffer : Option (List Nat)
deriving DecidableEq

/-- The document controller signDocument (both variants share this control
flow; `useRegistry` enables the registry insert of the registry-backed
variant).  Validation failures return 400/404 before any key handling.  The
upload is normalized and hashed, the wrapping key is re-derived, and the
private key is decrypted — a decryption failure is caught by the inner
handler and returned as 401 without the key ever materializing.  After a
successful decryption the digest is signed and the key buffer is immediately
wiped and the variable nulled; if Ed25519 signing throws first, the outer
catch handler finds the variable still set and wipes the buffer there.  Any
later failure (injection, registry insert, send) reaches the outer handler
with the variable already null, the buffer having been wiped at step 5. -/
def signDocument (useRegistry : Bool) (env : SignEnv) : SignResult :=
  if env.hasFile = false then ⟨400, none, none⟩
  else if env.hasPassword = false then ⟨400, none, none⟩
  else if env.mimeOk = false then ⟨400, none, none⟩
  else if env.userFound = false then ⟨404, none, none⟩
  else
    match normalizePdf env.file with
    | .error _ => ⟨500, none, none⟩
    | .ok normalizedPdf =>
      let pdfHash := hashPdfBuffer normalizedPdf
      let dek := deriveKeyFromPassword env.password env.user.salt
      match decryptPrivateKey env.user.encryptedPrivateKey env.user.iv dek with
      | .error _ => ⟨401, some normalizedPdf, none⟩
      | .ok privateKeyBytes =>
        if env.signThrows then
          ⟨500, some normalizedPdf, some (secureWipe privateKeyBytes)⟩
        else
          let _signatureHex := signHash pdfHash privateKeyBytes
          let wiped := secureWipe privateKeyBytes
          if env.injectThrows then ⟨500, some normalizedPdf, some wiped⟩
          else if useRegistry && env.registryThrows then
            ⟨500, some normalizedPdf, some wiped⟩
          else if env.sendThrows then ⟨500, some normalizedPdf, some wiped⟩
          else ⟨200, some normalizedPdf, some wiped⟩

/-- The response of the crypto-variant verifyDocument, together with the
buffer that was passed to hashPdfBuffer (for the hashing invariant). -/
structure VerifyCryptoResult where
  status : Nat
  success : Bool
  message : List Char
  verified : Bool
  signerPublicKey : Option (List Char)
  hashedBytes : Option PdfBytes
deriving DecidableEq

/-- The crypto-variant verifyDocument: extract and strip the envelope
(malformed input reaches the outer handler as 500; an absent envelope is
400 not-signed), hash the stripped buffer, verify the signature over that
digest under the extracted public key through verifySignature, and report
verified with the signer looked up by public key when the check passes, or
a tamper message when it fails. -/
def verifyDocumentCrypto (edVerify : List Nat → Nat → List Nat → Except String Bool)
    (users : List UserRec) (hasFile mimeOk : Bool) (file : PdfBytes) :
    VerifyCryptoResult :=
  if hasFile = false then
    ⟨400, false, "No file uploaded. Please upload a signed PDF document.".toList,
      false, none, none⟩
  else if mimeOk = false then
    ⟨400, false, "Only PDF documents can be verified.".toList, false, none, none⟩
  else
    match extractAndStripSignature file with
    | .error _ =>
      ⟨500, false, "An error occurred while verifying the document.".toList,
        false, none, none⟩
    | .ok none =>
      ⟨400, false,
        "This document does not contain a valid AegisSign signature.".toList,
        false, none, none⟩
    | .ok (some extracted) =>
      let cleanHash := hashPdfBuffer extracted.strippedPdfBuffer
      let isValid := verifySignature edVerify extracted.signature cleanHash
        extracted.publicKey
      if isValid then
        let signer := users.find? fun u => u.publicKey = extracted.publicKey
        ⟨200, true,
          (match signer with
           | some s => "Document verified! Signed by ".toList ++ s.email
           | none => "Document verified! Signature is valid.".toList),
          true, some extracted.publicKey, some extracted.strippedPdfBuffer⟩
      else
        ⟨200, true,
          "Signature verification failed. Document may have been tampered with.".toList,
          false, some extracted.publicKey, some extracted.strippedPdfBuffer⟩

/-- The response of the registry-backed verifyDocument. -/
structure VerifyRegResult where
  status : Nat
  success : Bool
  message : List Char
  verified : Bool
  signerEmail : Option (List Char)
  signerPublicKey : Option (List Char)
  signedAt : Option Nat
  error : Option (List Char)
deriving DecidableEq

/-- The registry-backed verifyDocument: extract and strip the envelope, then
query the Document Registry by the extracted signature (mongoose findOne,
modelled as first match in the registry list).  An absent record, or a
record whose signer did not populate, is reported as not registered; a
record whose stored public key differs from the extracted one is reported
as a public-key mismatch; otherwise the document is reported verified with
the signer's details.  Note that the stripped buffer is never hashed and no
cryptographic verification is performed in this variant. -/
def verifyDocumentRegistry (registry : List DocRecord) (hasFile mimeOk : Bool)
    (file : PdfBytes) : VerifyRegResult :=
  if hasFile = false then
    ⟨400, false,
      "No file uploaded. Please upload a PDF document to verify.".toList,
      false, none, none, none, none⟩
  else if mimeOk = false then
    ⟨400, false, "Only PDF documents can be verified.".toList,
      false, none, none, none, none⟩
  else
    match extractAndStripSignature file with
    | .error _ =>
      ⟨500, false, "An error occurred while verifying the document.".toList,
        false, none, none, none, none⟩
    | .ok none =>
      ⟨200, true, "This document was not signed with AegisSign.".toList,
        false, none, none, none,
        some "No AegisSign signature found in document.".toList⟩
    | .ok (some extracted) =>
      match (registry.find? fun r => r.signature = extracted.signature) with
      | none =>
        ⟨200, true, "Document signature not found in registry.".toList,
          false, none, none, none,
          some "Signature not registered in database.".toList⟩
      | some record =>
        match record.signer with
        | none =>
          ⟨200, true, "Document signature not found in registry.".toList,
            false, none, none, none,
            some "Signature not registered in database.".toList⟩
        | some signer =>
          if extracted.publicKey ≠ signer.publicKey then
            ⟨200, true,
              "Public key mismatch. Document may have been tampered with.".toList,
              false, none, some signer.publicKey, none, none⟩
          else
            ⟨200, true,
              "Document verified! Signed by ".toList ++ signer.email,
              true, some signer.email, some signer.publicKey,
              some record.createdAt, none⟩

deriving instance DecidableEq for Except

/-- A document with none of the five metadata fields present: a canonical
PDF that was produced without Title, Subject, Keywords, Producer or
Creator entries. -/
def emptyDoc : PdfDoc := ⟨none, none, none, none, none, 0⟩

/-- A document carrying a signed envelope: Producer and Creator hold the
tagged tokens for signature "ab" and public key "cd" appended to the
pre-existing values "p" and "c"; `content` distinguishes body variants. -/
def signedDoc (content : Nat) : PdfDoc :=
  ⟨some "t".toList, some [], some "kw".toList,
   some "p||AegisSign_Signature:ab".toList,
   some "c||AegisSign_Owner:cd".toList, content⟩

/-- The document obtained from `signedDoc` by stripping the envelope. -/
def strippedDoc (content : Nat) : PdfDoc :=
  ⟨some "t".toList, some [], some "kw".toList,
   some "p".toList, some "c".toList, content⟩

/-- A sample raw private key. -/
def rawKey₀ : List Nat := List.replicate 32 7

/-- A sample IV. -/
def iv₀ : List Nat := List.replicate 12 3

/-- A sample user whose wrapped key decrypts under password "pw". -/
def user₀ : UserRec :=
  ⟨"e".toList, "cd".toList,
   (encryptPrivateKey rawKey₀ (deriveKeyFromPassword "pw" [1, 2]) iv₀).1,
   iv₀, [1, 2]⟩

/-- A sample signing environment that reaches the success path. -/
def env₀ : SignEnv :=
  ⟨true, true, true, true, .canon emptyDoc, "pw", user₀, false, false, false, false⟩

/-- A registry holding the signature of `signedDoc` with a matching
signer key. -/
def registry₀ : List DocRecord := [⟨"ab".toList, some user₀, 99⟩]

/-! ## Helper lemmas -/

/-- Normalization always returns canonical bytes. -/
lemma normalizePdf_ok_canonical {x y : PdfBytes} (h : normalizePdf x = Except.ok y) :
    IsCanonical y := by
  cases x <;> simp [normalizePdf, loadPdf, savePdf] at h <;>
    simp [IsCanonical, ← h, normalizePdf, loadPdf, savePdf]

/-- The serialization of a document is canonical. -/
lemma isCanonical_savePdf (d : PdfDoc) : IsCanonical (savePdf d) := rfl

/-- Every byte of a wiped buffer is 0. -/
lemma secureWipe_zero (l : List Nat) : ∀ b ∈ secureWipe l, b = 0 := by
  simp [secureWipe]

/-- A successful extraction always returns a stripped buffer that is a
reserialization, hence canonical. -/
lemma extract_ok_stripped_canonical {f : PdfBytes} {e : ExtractedSignatureData}
    (h : extractAndStripSignature f = Except.ok (some e)) :
    IsCanonical e.strippedPdfBuffer := by
  unfold extractAndStripSignature at h
  split at h
  · exact absurd h (by simp)
  · rename_i d hd
    dsimp only at h
    rcases hf1 : findTag sigToken (d.producer.getD []) with _ | ⟨pre1, sig1, post1⟩ <;>
      rcases hf2 : findTag ownToken (d.creator.getD []) with _ | ⟨pre2, pk2, post2⟩ <;>
      rw [hf1, hf2] at h
    · exact Option.noConfusion (Except.ok.inj h)
    · exact Option.noConfusion (Except.ok.inj h)
    · exact Option.noConfusion (Except.ok.inj h)
    · obtain rfl := Option.some.inj (Except.ok.inj h)
      exact isCanonical_savePdf _

/-! ## Claim C8 -/

/-- Claim C8: canonicalization is idempotent — for every parsable raw byte
sequence, normalizing the normalization result reproduces it byte for byte;
equivalently every output of normalizePdf is a fixed point of normalizePdf. -/
theorem c8_canonicalize_idempotent (x y : PdfBytes)
    (h : normalizePdf x = Except.ok y) : normalizePdf y = Except.ok y :=
  normalizePdf_ok_canonical h

/-- Witness for C8 at a concrete non-canonical but parsable input. -/
theorem c8_witness :
    normalizePdf (PdfBytes.canon emptyDoc) = Except.ok (PdfBytes.canon emptyDoc) :=
  c8_canonicalize_idempotent (PdfBytes.noncanon emptyDoc 5) _ (by decide)

/-! ## Claim C6 -/

/-- Claim C6: verifySignature is a total boolean function for every input,
including malformed hex signatures and keys: when the underlying Ed25519
verifier throws, the exception is caught and the result is false; when it
returns a boolean, that boolean is the result.  No exception propagates in
either case. -/
theorem c6_verify_never_throws
    (edVerify : List Nat → Nat → List Nat → Except String Bool)
    (signature : List Char) (hash : Nat) (publicKey : List Char) :
    (∀ e, edVerify (hexDecodeJS signature) hash (hexDecodeJS publicKey) = .error e →
      verifySignature edVerify signature hash publicKey = false)
  ∧ (∀ b, edVerify (hexDecodeJS signature) hash (hexDecodeJS publicKey) = .ok b →
      verifySignature edVerify signature hash publicKey = b) := by
  constructor <;> intro v h <;> simp [verifySignature, h]

/-- Witness for C6: a throwing verifier on a malformed (non-hex, wrong
length) signature yields false; a successful verifier's boolean is passed
through. -/
theorem c6_witness :
    verifySignature (fun _ _ _ => .error "invalid key size") "zz".toList 0 "q".toList = false
  ∧ verifySignature (fun _ _ _ => .ok true) "ab".toList 5 "cd".toList = true :=
  ⟨(c6_verify_never_throws _ "zz".toList 0 "q".toList).1 "invalid key size" rfl,
   (c6_verify_never_throws _ "ab".toList 5 "cd".toList).2 true rfl⟩

/-! ## Claim C10 -/

/-- Claim C10: in the registry-backed verification path the classification
outcome is a function only of the extracted signature and public-key tokens
and the registry state: two uploads that extract to the same signature and
public key receive identical responses, whatever their content bytes — the
stripped content digest is never consulted. -/
theorem c10_registry_outcome_digest_independent
    (registry : List DocRecord) (f1 f2 : PdfBytes) (s k : List Char)
    (st1 st2 : PdfBytes)
    (h1 : extractAndStripSignature f1 = Except.ok (some ⟨s, k, st1⟩))
    (h2 : extractAndStripSignature f2 = Except.ok (some ⟨s, k, st2⟩)) :
    verifyDocumentRegistry registry true true f1
      = verifyDocumentRegistry registry true true f2 := by
  unfold verifyDocumentRegistry
  rw [h1, h2]

/-- Witness for C10: two signed uploads with identical envelopes but
different body content receive the same response. -/
theorem c10_witness :
    verifyDocumentRegistry registry₀ true true (PdfBytes.canon (signedDoc 0))
      = verifyDocumentRegistry registry₀ true true (PdfBytes.canon (signedDoc 1)) :=
  c10_registry_outcome_digest_independent registry₀ _ _ "ab".toList "cd".toList
    (savePdf (strippedDoc 0)) (savePdf (strippedDoc 1)) (by decide) (by decide)

/-! ## Claim C1 -/

/-- Claim C1 (code bug evaluation): the registry-backed verifyDocument
classifies a registered envelope as verified although it never runs the
cryptographic check — with an Ed25519 verifier that rejects the extracted
triple (as happens when the body bytes were mutated after signing), the
crypto-variant pipeline reports the same upload as not verified, yet the
registry-backed variant still reports it verified. -/
theorem c1_registry_valid_without_crypto_check :
    (verifyDocumentRegistry registry₀ true true (PdfBytes.canon (signedDoc 0))).verified = true
  ∧ (verifyDocumentCrypto (fun _ _ _ => .ok false) [] true true
      (PdfBytes.canon (signedDoc 0))).verified = false := by
  decide

/-! ## Claim C4 -/

/-- Counterexample for C4: in the crypto-variant verifyDocument a document
whose extracted signature passes cryptographic verification but whose public
key has no identity in the store is reported as fully verified (a plain
success message with verified set), not as a distinct Unregistered
outcome. -/
theorem c4_crypto_variant_counterexample :
    (verifyDocumentCrypto (fun _ _ _ => .ok true) [] true true
      (PdfBytes.canon (signedDoc 0))).verified = true
  ∧ (verifyDocumentCrypto (fun _ _ _ => .ok true) [] true true
      (PdfBytes.canon (signedDoc 0))).message
        = "Document verified! Signature is valid.".toList := by
  decide

/-- Claim C4 as amended: in the registry-backed verifyDocument, an uploaded
document whose extracted signature has no entry in the registry receives the
distinct not-registered response — success with verified false and the
dedicated registration error — not the verified response and not the
public-key-mismatch response. -/
theorem c4_registry_unregistered
    (registry : List DocRecord) (file : PdfBytes) (e : ExtractedSignatureData)
    (hx : extractAndStripSignature file = Except.ok (some e))
    (hr : (registry.find? fun r => r.signature = e.signature) = none) :
    verifyDocumentRegistry registry true true file
      = ⟨200, true, "Document signature not found in registry.".toList, false,
         none, none, none, some "Signature not registered in database.".toList⟩ := by
  unfold verifyDocumentRegistry
  rw [hx]
  simp [hr]

/-- Witness for C4 at a concrete signed upload and an empty registry. -/
theorem c4_witness :
    verifyDocumentRegistry [] true true (PdfBytes.canon (signedDoc 0))
      = ⟨200, true, "Document signature not found in registry.".toList, false,
         none, none, none, some "Signature not registered in database.".toList⟩ :=
  c4_registry_unregistered [] _ ⟨"ab".toList, "cd".toList, savePdf (strippedDoc 0)⟩
    (by decide) (by decide)

/-! ## Claim C3 -/

/-- Counterexample for C3: the token appended to the Producer carrier field
is not of the literal form existing-value||SIG:hex — the tag actually
written is AegisSign_Signature:. -/
theorem c3_tag_not_literal_counterexample :
    (match injectSignature (savePdf emptyDoc) "ab".toList "cd".toList with
      | .ok (.canon d) => d.producer
      | _ => none) = some "||AegisSign_Signature:ab".toList
  ∧ "||AegisSign_Signature:ab".toList ≠ "||SIG:ab".toList := by
  decide

/-- Claim C3 as amended: for every parsable document, embedding appends to
the Producer field exactly existing-value ++ sigToken ++ signature and to the
Creator field exactly existing-value ++ ownToken ++ publicKey, where sigToken
is the literal text of two bars then AegisSign_Signature then a colon and
ownToken is two bars then AegisSign_Owner then a colon — the persisted
wire-level tags, preserved exactly in the encoded output. -/
theorem c3_tag_amended (b : PdfBytes) (s k : List Char) (d : PdfDoc)
    (h : loadPdf b = some d) :
    ∃ d', injectSignature b s k = Except.ok (savePdf d')
      ∧ d'.producer = some (d.producer.getD [] ++ sigToken ++ s)
      ∧ d'.creator = some (d.creator.getD [] ++ ownToken ++ k) := by
  unfold injectSignature
  rw [h]
  exact ⟨_, rfl, rfl, rfl⟩

/-- Witness for C3 at a concrete document with existing Producer and
Creator values. -/
theorem c3_witness :
    ∃ d', injectSignature (savePdf (strippedDoc 0)) "ab".toList "cd".toList
        = Except.ok (savePdf d')
      ∧ d'.producer = some ((strippedDoc 0).producer.getD [] ++ sigToken ++ "ab".toList)
      ∧ d'.creator = some ((strippedDoc 0).creator.getD [] ++ ownToken ++ "cd".toList) :=
  c3_tag_amended (savePdf (strippedDoc 0)) "ab".toList "cd".toList (strippedDoc 0) rfl

/-! ## Claim C5 -/

/-- Claim C5: in every execution of the signing orchestrator in which the
raw private key is materialized (decryption of the wrapped key succeeded),
every exit path — the normal return as well as every error path, in both
controller variants — leaves the raw-private-key buffer fully zeroized:
whenever the call returns with a materialized key buffer, all of its bytes
are 0. -/
theorem c5_zeroize_every_exit (useRegistry : Bool) (env : SignEnv)
    (buf : List Nat) (h : (signDocument useRegistry env).keyBuffer = some buf) :
    ∀ b ∈ buf, b = 0 := by
  unfold signDocument at h
  repeat' split at h
  all_goals dsimp only at h
  all_goals repeat' split at h
  all_goals first
    | (obtain rfl : secureWipe _ = buf := Option.some.inj h
       exact secureWipe_zero _)
    | simp at h

set_option maxRecDepth 4000 in
/-- Witness for C5 at a concrete successful signing call: the key buffer it
returns is all-zero. -/
theorem c5_witness : ((List.replicate 32 0 : List Nat).all fun b => b == 0) = true :=
  List.all_eq_true.mpr fun b hb => by
    simpa using c5_zeroize_every_exit true env₀ (List.replicate 32 0) (by decide) b hb

/-! ## Claim C9 -/

/-- Claim C9: every digest in the signing and verification workflows is
computed over canonical bytes, never over the raw upload: the buffer the
signing orchestrator hashes is the normalization of the upload (and is a
fixed point of normalizePdf), and the buffer the crypto-variant verifier
hashes is the stripped reserialized buffer of the extraction (likewise a
fixed point of normalizePdf). -/
theorem c9_hash_canonical_bytes :
    (∀ (useRegistry : Bool) (env : SignEnv) (b : PdfBytes),
      (signDocument useRegistry env).hashedBytes = some b →
        normalizePdf env.file = Except.ok b ∧ IsCanonical b)
  ∧ (∀ (edVerify : List Nat → Nat → List Nat → Except String Bool)
      (users : List UserRec) (hasFile mimeOk : Bool) (file : PdfBytes)
      (b : PdfBytes),
      (verifyDocumentCrypto edVerify users hasFile mimeOk file).hashedBytes = some b →
        (∃ e, extractAndStripSignature file = Except.ok (some e)
          ∧ b = e.strippedPdfBuffer) ∧ IsCanonical b) := by
  constructor
  · intro useRegistry env b h
    unfold signDocument at h
    repeat' split at h
    all_goals dsimp only at h
    all_goals repeat' split at h
    all_goals first
      | (obtain rfl : _ = b := Option.some.inj h
         exact ⟨by assumption, normalizePdf_ok_canonical (by assumption)⟩)
      | simp at h
  · intro edVerify users hasFile mimeOk file b h
    unfold verifyDocumentCrypto at h
    repeat' split at h
    all_goals dsimp only at h
    all_goals repeat' split at h
    all_goals first
      | (obtain rfl : _ = b := Option.some.inj h
         exact ⟨⟨_, by assumption, rfl⟩,
           extract_ok_stripped_canonical (by assumption)⟩)
      | simp at h

set_option maxRecDepth 4000 in
/-- Witness for C9: a concrete signing call hashes the canonicalized upload
and a concrete verification call hashes the stripped reserialized buffer. -/
theorem c9_witness :
    (normalizePdf env₀.file = Except.ok (PdfBytes.canon emptyDoc)
      ∧ IsCanonical (PdfBytes.canon emptyDoc))
  ∧ ((∃ e, extractAndStripSignature (PdfBytes.canon (signedDoc 0)) = Except.ok (some e)
      ∧ savePdf (strippedDoc 0) = e.strippedPdfBuffer)
      ∧ IsCanonical (savePdf (strippedDoc 0))) :=
  ⟨c9_hash_canonical_bytes.1 true env₀ (PdfBytes.canon emptyDoc) (by decide),
   c9_hash_canonical_bytes.2 (fun _ _ _ => .ok true) [] true true
     (PdfBytes.canon (signedDoc 0)) (savePdf (strippedDoc 0)) (by decide)⟩

/-! ## Claim C7: key wrapping lemmas -/

/-- The derived key always has 32 bytes. -/
lemma deriveKeyFromPassword_length (password : String) (salt : List Nat) :
    (deriveKeyFromPassword password salt).length = 32 := by
  simp [deriveKeyFromPassword]

/-- Pairing consecutive entries halves the length, rounding up. -/
lemma pairUp_length : ∀ (l : List Nat), (pairUp l).length = (l.length + 1) / 2
  | [] => rfl
  | [_] => by simp [pairUp]
  | _ :: _ :: r => by simp [pairUp, pairUp_length r]; omega

/-- Pairing consecutive entries is injective on lists of equal length. -/
lemma pairUp_inj : ∀ (l₁ l₂ : List Nat), l₁.length = l₂.length →
    pairUp l₁ = pairUp l₂ → l₁ = l₂
  | [], [], _, _ => rfl
  | [a], [b], _, h => by
    have h1 : Nat.pair a 0 = Nat.pair b 0 := by simpa [pairUp] using h
    have h2 := congrArg Nat.unpair h1
    simp [Nat.unpair_pair] at h2
    simp [h2]
  | a :: b :: r, a' :: b' :: r', hl, h => by
    simp only [pairUp, List.cons.injEq] at h
    have hab := congrArg Nat.unpair h.1
    simp [Nat.unpair_pair, Prod.ext_iff] at hab
    have hr := pairUp_inj r r' (by simpa using hl) h.2
    simp [hab.1, hab.2, hr]
  | [], [_], hl, _ => by simp at hl
  | [], _ :: _ :: _, hl, _ => by simp at hl
  | [_], [], hl, _ => by simp at hl
  | [_], _ :: _ :: _, hl, _ => by simp at hl
  | _ :: _ :: _, [], hl, _ => by simp at hl
  | _ :: _ :: _, [_], hl, _ => by simp at hl

/-- The modelled authentication tag of a 32-byte key has 16 bytes. -/
lemma gcmAuthTag_length (dek iv ct : List Nat) (h : dek.length = 32) :
    (gcmAuthTag dek iv ct).length = 16 := by
  have hp : (pairUp dek).length = 16 := by rw [pairUp_length, h]
  rcases hc : pairUp dek with _ | ⟨t0, rest⟩
  · rw [hc] at hp; simp at hp
  · unfold gcmAuthTag
    rw [hc]
    rw [hc] at hp
    simp at hp ⊢
    omega

/-- The modelled authentication tag is injective in a 32-byte key: distinct
keys give distinct tags over the same IV and ciphertext. -/
lemma gcmAuthTag_key_inj {dek₁ dek₂ : List Nat} (iv ct : List Nat)
    (h₁ : dek₁.length = 32) (h₂ : dek₂.length = 32)
    (h : gcmAuthTag dek₁ iv ct = gcmAuthTag dek₂ iv ct) : dek₁ = dek₂ := by
  have hp₁ : (pairUp dek₁).length = 16 := by rw [pairUp_length, h₁]
  have hp₂ : (pairUp dek₂).length = 16 := by rw [pairUp_length, h₂]
  rcases hc₁ : pairUp dek₁ with _ | ⟨t0, rest⟩
  · rw [hc₁] at hp₁; simp at hp₁
  · rcases hc₂ : pairUp dek₂ with _ | ⟨t0', rest'⟩
    · rw [hc₂] at hp₂; simp at hp₂
    · unfold gcmAuthTag at h
      rw [hc₁, hc₂] at h
      simp only [List.cons.injEq] at h
      have ht := congrArg Nat.unpair h.1
      simp [Nat.unpair_pair, Prod.ext_iff] at ht
      refine pairUp_inj dek₁ dek₂ (by omega) ?_
      rw [hc₁, hc₂, ht, h.2]

/-- Decrypting an encrypted byte stream recovers the plaintext. -/
lemma gcm_roundtrip (dek iv : List Nat) : ∀ (i : Nat) (pt : List Nat),
    (∀ b ∈ pt, b < 256) →
    gcmDecryptBody dek iv i (gcmEncryptBody dek iv i pt) = pt := by
  intro i pt
  induction pt generalizing i with
  | nil => intro _; rfl
  | cons b r ih =>
    intro hb
    simp only [gcmEncryptBody, gcmDecryptBody, List.cons.injEq]
    exact ⟨by have := hb b (by simp); omega,
           ih (i + 1) fun x hx => hb x (List.mem_cons_of_mem _ hx)⟩

/-- Claim C7: wrapping a 32-byte raw key under the key derived from a
password and salt and unwrapping under the same derived key returns the
original raw key; unwrapping under the key derived from any wrong password
whose derived key differs fails with the recoverable authentication error
(the signal surfaced as invalid-credential by the signing orchestrator),
not a crash. -/
theorem c7_wrap_unwrap (privateKey salt iv : List Nat)
    (password wrongPassword : String)
    (hlen : privateKey.length = 32) (hbytes : ∀ b ∈ privateKey, b < 256)
    (hwrong : deriveKeyFromPassword wrongPassword salt
      ≠ deriveKeyFromPassword password salt) :
    decryptPrivateKey
        (encryptPrivateKey privateKey (deriveKeyFromPassword password salt) iv).1
        iv (deriveKeyFromPassword password salt) = Except.ok privateKey
  ∧ ∃ e, decryptPrivateKey
        (encryptPrivateKey privateKey (deriveKeyFromPassword password salt) iv).1
        iv (deriveKeyFromPassword wrongPassword salt) = Except.error e := by
  have hdl : (deriveKeyFromPassword password salt).length = 32 :=
    deriveKeyFromPassword_length _ _
  have hdl' : (deriveKeyFromPassword wrongPassword salt).length = 32 :=
    deriveKeyFromPassword_length _ _
  set dek := deriveKeyFromPassword password salt with hdek
  set dek' := deriveKeyFromPassword wrongPassword salt with hdek'
  unfold encryptPrivateKey decryptPrivateKey
  dsimp only
  set ct := gcmEncryptBody dek iv 0 privateKey with hct
  set tg := gcmAuthTag dek iv ct with htg
  have hlen16 : tg.length = 16 := gcmAuthTag_length dek iv ct hdl
  have hn : (ct ++ tg).length - 16 = ct.length := by
    simp [List.length_append, hlen16]
  rw [hn, List.drop_left, List.take_left]
  constructor
  · rw [if_pos rfl]
    exact congrArg Except.ok (gcm_roundtrip dek iv 0 privateKey hbytes)
  · rw [if_neg fun h => hwrong (gcmAuthTag_key_inj iv ct hdl' hdl (htg ▸ h).symm)]
    exact ⟨_, rfl⟩

/-- Witness for C7 at a concrete key, salt, IV and password pair. -/
theorem c7_witness :
    decryptPrivateKey
        (encryptPrivateKey (List.replicate 32 7)
          (deriveKeyFromPassword "pw" [1, 2]) iv₀).1
        iv₀ (deriveKeyFromPassword "pw" [1, 2])
      = Except.ok (List.replicate 32 7)
  ∧ ∃ e, decryptPrivateKey
        (encryptPrivateKey (List.replicate 32 7)
          (deriveKeyFromPassword "pw" [1, 2]) iv₀).1
        iv₀ (deriveKeyFromPassword "wrong" [1, 2]) = Except.error e :=
  c7_wrap_unwrap (List.replicate 32 7) [1, 2] iv₀ "pw" "wrong"
    (by decide) (by decide) (by decide)

/-! ## Claim C2: envelope codec lemmas -/

/-- An all-hex list is consumed whole by the greedy hex matcher. -/
lemma splitHex_of_hex : ∀ (s : List Char), (∀ c ∈ s, isHexDigit c = true) →
    splitHex s = (s, [])
  | [], _ => rfl
  | c :: r, h => by
    simp only [splitHex, h c (by simp), if_true, splitHex_of_hex r
      fun x hx => h x (List.mem_cons_of_mem _ hx)]

/-- A list is a Boolean prefix of itself followed by anything. -/
lemma isPrefixOf_append_self (l r : List Char) : l.isPrefixOf (l ++ r) = true :=
  List.isPrefixOf_iff_prefix.mpr (List.prefix_append l r)

/-- Scanning a string made of a clean part, the tag, and a nonempty all-hex
payload finds exactly that payload: the before-part is the clean part and
the after-part is empty.  Cleanliness means the tag does not begin at any
position strictly inside the before-part. -/
lemma findTag_append_eq (tag : List Char) (htag : tag ≠ []) :
    ∀ (p s : List Char), s ≠ [] → (∀ c ∈ s, isHexDigit c = true) →
    (∀ i < p.length, tag.isPrefixOf ((p ++ tag ++ s).drop i) = false) →
    findTag tag (p ++ tag ++ s) = some (p, s, [])
  | [], s, hs, hhex, _ => by
    obtain ⟨a, tag', rfl⟩ := List.exists_cons_of_ne_nil htag
    simp only [List.nil_append]
    rw [show (a :: tag') ++ s = a :: (tag' ++ s) from rfl, findTag]
    rw [show a :: (tag' ++ s) = (a :: tag') ++ s from rfl]
    rw [isPrefixOf_append_self, List.drop_left, splitHex_of_hex s hhex]
    simp [hs]
  | a :: p, s, hs, hhex, hclean => by
    have h0 : tag.isPrefixOf ((a :: p) ++ tag ++ s) = false := by
      have := hclean 0 (by simp)
      simpa using this
    rw [show (a :: p) ++ tag ++ s = a :: (p ++ tag ++ s) from rfl, findTag]
    rw [show a :: (p ++ tag ++ s) = (a :: p) ++ tag ++ s from rfl, h0]
    simp only [Bool.false_and, Bool.false_eq_true, if_false]
    rw [findTag_append_eq tag htag p s hs hhex fun i hi => by
      have := hclean (i + 1) (by simp; omega)
      simpa using this]

/-- Splitting a comma-free string on commas yields the single field. -/
lemma splitOnComma_no_comma : ∀ (kw : List Char), ',' ∉ kw →
    splitOnComma kw = [kw]
  | [], _ => rfl
  | c :: r, h => by
    have hc : ¬c = ',' := fun hc => h (hc ▸ List.mem_cons_self c r)
    simp only [splitOnComma, if_neg hc,
      splitOnComma_no_comma r fun hr => h (List.mem_cons_of_mem _ hr)]

/-- Counterexample for C2: embedding into a canonical document that has no
pre-existing Title, Subject, Keywords, Producer or Creator metadata and then
extracting returns the signature and key, but the stripped buffer is not
byte-identical to the original — the Title has become Signed Document and
the other four fields have materialized as present-but-empty. -/
theorem c2_roundtrip_counterexample :
    (injectSignature (savePdf emptyDoc) "ab".toList "cd".toList).bind
        extractAndStripSignature
      = Except.ok (some ⟨"ab".toList, "cd".toList,
          savePdf ⟨some "Signed Document".toList, some [], some [], some [],
            some [], 0⟩⟩)
  ∧ savePdf (⟨some "Signed Document".toList, some [], some [], some [],
      some [], 0⟩ : PdfDoc) ≠ savePdf emptyDoc := by
  decide

/-- Claim C2 as amended: the embed/extract round-trip is exact — returning
precisely the signature, the key, and stripped bytes byte-identical to the
canonical input — for every canonical document whose Title is present and
nonempty and whose Subject, Keywords, Producer and Creator fields are
present, with Keywords comma-free and trim-stable, the carrier fields not
already containing the tag pattern, and nonempty all-hex signature and key
(the shape every signing-orchestrator output has). -/
theorem c2_roundtrip_amended
    (d : PdfDoc) (s k t kw p cr : List Char)
    (htitle : d.title = some t) (ht : t ≠ [])
    (hsubject : d.subject.isSome = true)
    (hkeywords : d.keywords = some kw) (hkc : ',' ∉ kw)
    (hkt : trimChars kw = kw)
    (hproducer : d.producer = some p) (hcreator : d.creator = some cr)
    (hs : s ≠ []) (hshex : ∀ c ∈ s, isHexDigit c = true)
    (hk : k ≠ []) (hkhex : ∀ c ∈ k, isHexDigit c = true)
    (hpclean : ∀ i < p.length,
      sigToken.isPrefixOf ((p ++ sigToken ++ s).drop i) = false)
    (hcclean : ∀ i < cr.length,
      ownToken.isPrefixOf ((cr ++ ownToken ++ k).drop i) = false) :
    (injectSignature (savePdf d) s k).bind extractAndStripSignature
      = Except.ok (some ⟨s, k, savePdf d⟩) := by
  obtain ⟨s₀, hs₀⟩ := Option.isSome_iff_exists.mp hsubject
  obtain ⟨dt, dsub, dkw, dp, dc, dcon⟩ := d
  simp only at htitle hs₀ hkeywords hproducer hcreator
  subst htitle hs₀ hkeywords hproducer hcreator
  unfold injectSignature
  dsimp only [savePdf, loadPdf]
  rw [if_neg ht, splitOnComma_no_comma kw hkc]
  dsimp only [List.map_cons, List.map_nil, joinSpace]
  rw [hkt]
  dsimp only [Except.bind, Option.getD_some]
  unfold extractAndStripSignature
  dsimp only [savePdf, loadPdf, Option.getD_some]
  rw [findTag_append_eq sigToken (by decide) p s hs hshex hpclean,
      findTag_append_eq ownToken (by decide) cr k hk hkhex hcclean]
  simp

/-- Witness for C2 at a concrete document with all five metadata fields
present. -/
theorem c2_witness :
    (injectSignature (savePdf (strippedDoc 0)) "ab".toList "cd".toList).bind
        extractAndStripSignature
      = Except.ok (some ⟨"ab".toList, "cd".toList, savePdf (strippedDoc 0)⟩) :=
  c2_roundtrip_amended (strippedDoc 0) "ab".toList "cd".toList "t".toList
    "kw".toList "p".toList "c".toList (by decide) (by decide) (by decide)
    (by decide) (by decide) (by decide) (by decide) (by decide) (by decide)
    (by decide) (by decide) (by decide) (by decide) (by decide)

end DocSecure
